import Mathlib

/-!
# Verification of the POS–MRP integration module

A shallow embedding of the decision logic of the `pos_mrp_integration`
Odoo module (files `models/product_template.py`, `models/pos_order.py`),
together with theorems settling the specification claims.

Conventions of the embedding:
* record identifiers are `Nat`; optional relational references are `Option Nat`;
* quantities are exact rationals (`ℚ`), matching the non-negative-real numeric
  semantics of the spec while keeping every comparison decidable;
* the external record store (products, BOM catalog, warehouses, sessions,
  stock ledger, job-creation outcome) is an explicit `Env` parameter;
* fallible operations return the error value explicitly instead of raising.
-/

namespace PosMrp

/-- A BOM component line (`mrp.bom.line`): component product, quantity per
unit produced, and the component's unit-of-measure name. -/
structure BomLine where
  componentId : Nat
  componentName : String
  productQty : ℚ
  uomName : String
  deriving Repr, DecidableEq

/-- A bill of materials (`mrp.bom`): owning template, optional variant scope
(`product_id`), optional company scope, `type` kind, `active` flag, selection
`sequence`, and component lines. -/
structure Bom where
  id : Nat
  productTmplId : Nat
  productId : Option Nat
  companyId : Option Nat
  bomType : String
  active : Bool
  sequence : Nat
  lines : List BomLine
  deriving Repr, DecidableEq

/-- The POS-MRP configuration of a product template
(`product.template` fields added by the module). `pos_bom_id` holds the
explicitly configured POS BOM record, when set. -/
structure ProductTemplate where
  id : Nat
  name : String
  pos_mrp_enabled : Bool
  pos_mrp_auto_confirm : Bool
  pos_bom_id : Option Bom
  pos_mrp_check_availability : Bool
  deriving Repr, DecidableEq

/-- A product variant (`product.product`) together with its template. -/
structure Product where
  id : Nat
  display_name : String
  tmpl : ProductTemplate
  uomId : Nat
  deriving Repr, DecidableEq

/-- A warehouse (`stock.warehouse`): owning company and its main stock
location `lot_stock_id` (modelled as optional so that the no-location
fail-closed branch is reachable). -/
structure Warehouse where
  id : Nat
  companyId : Nat
  lot_stock_id : Option Nat
  deriving Repr, DecidableEq

/-- A POS session (`pos.session`): its company and the warehouse implied by
its config's picking type, when any. -/
structure Session where
  id : Nat
  companyId : Nat
  warehouseId : Option Nat
  deriving Repr, DecidableEq

/-- A manufacturing picking type (`stock.picking.type`). -/
structure PickingType where
  id : Nat
  code : String
  warehouseId : Option Nat
  companyId : Nat
  deriving Repr, DecidableEq

/-- The external record store and collaborators, made an explicit parameter:
product lookup, BOM catalog, warehouses, sessions, picking types, the strict
stock-on-hand ledger (`stock.quant._get_available_quantity` with
`strict=True`), the ambient company (`self.env.company`), and the outcome of
the external job-creation primitive per order line (`True` means
`mrp.production.create` / `action_confirm` raises for that line). -/
structure Env where
  products : List Product
  catalog : List Bom
  warehouses : List Warehouse
  sessions : List Session
  pickingTypes : List PickingType
  stock : Nat → Nat → ℚ
  defaultCompanyId : Nat
  createFails : Nat → Bool

/-- Domain filter of the fallback BOM search in `get_pos_bom`:
`[('product_tmpl_id','=',id), ('type','=','normal'), ('active','=',True)]`
plus `('product_id','in',[variant, False])` when a variant is given and
`('company_id','in',[company, False])` when a company is given. -/
def bomMatches (tmplId : Nat) (productId companyId : Option Nat) (b : Bom) : Bool :=
  b.productTmplId == tmplId && b.bomType == "normal" && b.active &&
  (match productId with
   | none => true
   | some p => b.productId == some p || b.productId == none) &&
  (match companyId with
   | none => true
   | some c => b.companyId == some c || b.companyId == none)

/-- Sort key of `order='sequence, product_id desc'`: a BOM with a variant
set sorts before a variant-agnostic one at equal sequence (descending on the
`product_id` reference, the unset reference being smallest). -/
def variantKey (b : Bom) : Nat :=
  match b.productId with
  | none => 0
  | some p => p + 1

/-- Strict "comes first" relation of the search order
`'sequence, product_id desc'`: lower sequence first, then higher
`variantKey` first. -/
def bomBefore (a b : Bom) : Bool :=
  a.sequence < b.sequence || (a.sequence == b.sequence && variantKey b < variantKey a)

/-- One step of the `limit=1` ordered search: keep the record that comes
first under `bomBefore` (the earlier record kept on full ties). -/
def searchStep (acc : Option Bom) (b : Bom) : Option Bom :=
  match acc with
  | none => some b
  | some a => if bomBefore b a then some b else some a

/-- `search(domain, limit=1, order='sequence, product_id desc')`: the first
element of the matching records under `bomBefore`. -/
def searchBom (catalog : List Bom) (tmplId : Nat) (productId companyId : Option Nat) :
    Option Bom :=
  (catalog.filter (bomMatches tmplId productId companyId)).foldl searchStep none

/-- `ProductTemplate.get_pos_bom`: the explicitly configured POS BOM when
present, else the fallback search over the catalog. -/
def get_pos_bom (tmpl : ProductTemplate) (catalog : List Bom)
    (productId companyId : Option Nat) : Option Bom :=
  match tmpl.pos_bom_id with
  | some b => some b
  | none => searchBom catalog tmpl.id productId companyId

/-- One entry of `missing_components`. Component-shortage entries carry a
`uom` and no `reason`; the `No BOM found` and no-location entries carry a
`reason` and no `uom`, exactly as the Python dicts do. -/
structure MissingComponent where
  product : String
  required : ℚ
  available : ℚ
  shortage : ℚ
  uom : Option String
  reason : Option String
  deriving Repr, DecidableEq

/-- The dict returned by `check_components_availability`. -/
structure AvailabilityResult where
  available : Bool
  missing_components : List MissingComponent
  deriving Repr, DecidableEq

/-- Location resolution inside `check_components_availability`: the given
warehouse's `lot_stock_id` when the warehouse exists, else the
`lot_stock_id` of the first warehouse of the (given or ambient) company. -/
def resolveLocation (env : Env) (companyId warehouseId : Option Nat) : Option Nat :=
  let fromWarehouse : Option Nat :=
    match warehouseId with
    | some wid =>
      match env.warehouses.find? (fun w => w.id == wid) with
      | some w => w.lot_stock_id
      | none => none
    | none => none
  match fromWarehouse with
  | some loc => some loc
  | none =>
    let cid := companyId.getD env.defaultCompanyId
    match env.warehouses.find? (fun w => w.companyId == cid) with
    | some w => w.lot_stock_id
    | none => none

/-- The shortage entry a component line contributes when stock is short:
`required = line.product_qty * quantity`, `available` the strict on-hand
quantity, `shortage = required - available`. -/
def componentShort (env : Env) (loc : Nat) (quantity : ℚ) (line : BomLine) :
    Option MissingComponent :=
  let required := line.productQty * quantity
  let avail := env.stock line.componentId loc
  if avail < required then
    some ⟨line.componentName, required, avail, required - avail, some line.uomName, none⟩
  else
    none

/-- `ProductTemplate.check_components_availability`: resolve the BOM, handle
the empty-BOM and no-location edge cases, then scan every component line
without short-circuiting. -/
def check_components_availability (env : Env) (tmpl : ProductTemplate)
    (productId : Option Nat) (quantity : ℚ) (companyId warehouseId : Option Nat) :
    AvailabilityResult :=
  match get_pos_bom tmpl env.catalog productId companyId with
  | none =>
    ⟨false, [⟨tmpl.name, quantity, 0, quantity, none, some "No BOM found"⟩]⟩
  | some bom =>
    if bom.lines.isEmpty then
      ⟨true, []⟩
    else
      match resolveLocation env companyId warehouseId with
      | none =>
        ⟨false, [⟨"System", 0, 0, 0, none,
          some "No warehouse location found for stock check"⟩]⟩
      | some loc =>
        let missing := bom.lines.filterMap (componentShort env loc quantity)
        ⟨missing.isEmpty, missing⟩

/-- A POS order line as stored server-side (`pos.order.line`): the line id,
the product record and the quantity. -/
structure OrderLine where
  id : Nat
  product : Product
  qty : ℚ
  deriving Repr, DecidableEq

/-- A POS order as stored server-side (`pos.order`). -/
structure Order where
  name : String
  companyId : Nat
  sessionId : Option Nat
  lines : List OrderLine
  deriving Repr, DecidableEq

/-- The warehouse implied by an order's session
(`self.session_id.config_id.picking_type_id.warehouse_id`). -/
def orderWarehouse (env : Env) (o : Order) : Option Nat :=
  match o.sessionId.bind (fun sid => env.sessions.find? (fun s => s.id == sid)) with
  | some s => s.warehouseId
  | none => none

/-- The error raised by `_validate_mrp_products`: missing-BOM products are
raised first; otherwise the per-product shortage details. -/
inductive MrpError where
  | noBom (products : List String)
  | insufficient (items : List (String × List MissingComponent))
  deriving Repr, DecidableEq

/-- The line scan of `_validate_mrp_products`: for each MRP-enabled line,
a missing BOM goes to `invalid_products` (and skips the availability
check); with a BOM resolved and the product's check-availability flag set,
a failed availability check goes to `unavailable_products`. -/
def validateScan (env : Env) (companyId : Nat) (warehouseId : Option Nat) :
    List OrderLine → List String × List (String × List MissingComponent)
  | [] => ([], [])
  | l :: rest =>
    let acc := validateScan env companyId warehouseId rest
    let tmpl := l.product.tmpl
    if tmpl.pos_mrp_enabled then
      match get_pos_bom tmpl env.catalog (some l.product.id) (some companyId) with
      | none => (l.product.display_name :: acc.1, acc.2)
      | some _ =>
        if tmpl.pos_mrp_check_availability then
          let res := check_components_availability env tmpl (some l.product.id) l.qty
            (some companyId) warehouseId
          if res.available then acc
          else (acc.1, (l.product.display_name, res.missing_components) :: acc.2)
        else acc
    else acc

/-- `PosOrder._validate_mrp_products`: `none` when the order passes, the
raised `UserError` otherwise (missing BOMs reported first). -/
def _validate_mrp_products (env : Env) (o : Order) : Option MrpError :=
  let acc := validateScan env o.companyId (orderWarehouse env o) o.lines
  if acc.1 ≠ [] then some (.noBom acc.1)
  else if acc.2 ≠ [] then some (.insufficient acc.2)
  else none

/-- `PosOrder._get_mrp_picking_type`: the manufacturing picking type of the
session's warehouse and the order's company, else any manufacturing picking
type of the company. -/
def _get_mrp_picking_type (env : Env) (o : Order) : Option Nat :=
  let fallback :=
    (env.pickingTypes.find? (fun pt =>
      pt.code == "mrp_operation" && pt.companyId == o.companyId)).map (fun pt => pt.id)
  match orderWarehouse env o with
  | some wid =>
    match env.pickingTypes.find? (fun pt =>
        pt.code == "mrp_operation" && pt.warehouseId == some wid &&
        pt.companyId == o.companyId) with
    | some pt => some pt.id
    | none => fallback
  | none => fallback

/-- A created manufacturing order (`mrp.production`), with the values of
`_prepare_mrp_production_vals` and its workflow state after the optional
`action_confirm`. -/
structure ProductionJob where
  product_id : Nat
  product_qty : ℚ
  product_uom_id : Nat
  bom_id : Nat
  pos_order_name : String
  pos_order_line_id : Nat
  origin : String
  company_id : Nat
  picking_type_id : Option Nat
  confirmed : Bool
  deriving Repr, DecidableEq

/-- `_prepare_mrp_production_vals` followed by `create` and the optional
`action_confirm`: the job a line yields when creation succeeds. -/
def mkJob (env : Env) (o : Order) (l : OrderLine) (bom : Bom) : ProductionJob :=
  { product_id := l.product.id
  , product_qty := l.qty
  , product_uom_id := l.product.uomId
  , bom_id := bom.id
  , pos_order_name := o.name
  , pos_order_line_id := l.id
  , origin := o.name
  , company_id := o.companyId
  , picking_type_id := _get_mrp_picking_type env o
  , confirmed := l.product.tmpl.pos_mrp_auto_confirm }

/-- The line loop of `_create_manufacturing_orders`: skips non-MRP and
non-positive-quantity lines, skips (with a logged warning) lines whose BOM
does not resolve, and on a creation/confirmation failure raises after the
jobs of the earlier lines have been created — the returned list holds
exactly the jobs created before the failure. -/
def createMOs (env : Env) (o : Order) :
    List OrderLine → List ProductionJob × Option String
  | [] => ([], none)
  | l :: rest =>
    let tmpl := l.product.tmpl
    if tmpl.pos_mrp_enabled = false ∨ l.qty ≤ 0 then
      createMOs env o rest
    else
      match get_pos_bom tmpl env.catalog (some l.product.id) (some o.companyId) with
      | none => createMOs env o rest
      | some bom =>
        if env.createFails l.id then
          ([], some ("Failed to create Manufacturing Order for product " ++
            l.product.display_name))
        else
          let job := mkJob env o l bom
          let acc := createMOs env o rest
          (job :: acc.1, acc.2)

/-- `PosOrder._create_manufacturing_orders`. -/
def _create_manufacturing_orders (env : Env) (o : Order) :
    List ProductionJob × Option String :=
  createMOs env o o.lines

/-- The stored compute `has_mrp_products`: some line's product is
MRP-enabled. -/
def has_mrp_products (o : Order) : Bool :=
  o.lines.any (fun l => l.product.tmpl.pos_mrp_enabled)

/-- The error surfaced by `action_pos_order_paid`: the pre-payment
validation error, or a job-creation failure. -/
inductive PaidError where
  | validation (e : MrpError)
  | creation (msg : String)
  deriving Repr, DecidableEq

/-- `PosOrder.action_pos_order_paid` threaded over the job store: validate
first (raising leaves the store unchanged), then create the manufacturing
orders when the order has MRP products; a creation failure keeps the jobs
created before it. -/
def action_pos_order_paid (env : Env) (jobs : List ProductionJob) (o : Order) :
    List ProductionJob × Option PaidError :=
  match _validate_mrp_products env o with
  | some e => (jobs, some (.validation e))
  | none =>
    if has_mrp_products o then
      let acc := _create_manufacturing_orders env o
      (jobs ++ acc.1, acc.2.map .creation)
    else (jobs, none)

/-- A POS order line as submitted from the UI (the parsed `line_vals` dict
of `sync_from_ui`): an optional product reference and a quantity. -/
structure UiLine where
  id : Nat
  product_id : Option Nat
  qty : ℚ
  deriving Repr, DecidableEq

/-- A POS order as submitted from the UI (the parsed `order_data` dict). -/
structure UiOrder where
  name : String
  sessionId : Option Nat
  lines : List UiLine
  deriving Repr, DecidableEq

/-- Session context resolution of `_check_mrp_availability_for_order`: the
company and warehouse of the order's session when it exists, else the
ambient company and no warehouse. -/
def uiOrderCtx (env : Env) (o : UiOrder) : Nat × Option Nat :=
  match o.sessionId.bind (fun sid => env.sessions.find? (fun s => s.id == sid)) with
  | some s => (s.companyId, s.warehouseId)
  | none => (env.defaultCompanyId, none)

/-- One detail line of the batch-path error message (the numeric
formatting of the Python f-string is abstracted by `toString`). -/
def describeShort (c : MissingComponent) : String :=
  match c.reason with
  | some r => r
  | none => c.product ++ ": مطلوب " ++ toString c.required ++ ", متوفر " ++
      toString c.available

/-- The per-line scan of `_check_mrp_availability_for_order`: lines without
a product, with non-positive quantity, with an unknown product, with a
non-MRP product, or with the check-availability flag unset are skipped;
otherwise a failed availability check yields the product's message line. -/
def uiLineIssue (env : Env) (companyId : Nat) (warehouseId : Option Nat)
    (l : UiLine) : Option String :=
  match l.product_id with
  | none => none
  | some pid =>
    if l.qty ≤ 0 then none
    else
      match env.products.find? (fun p => p.id == pid) with
      | none => none
      | some product =>
        let tmpl := product.tmpl
        if tmpl.pos_mrp_enabled = false then none
        else if tmpl.pos_mrp_check_availability = false then none
        else
          let res := check_components_availability env tmpl (some pid) l.qty
            (some companyId) warehouseId
          if res.available then none
          else some ("📦 " ++ product.display_name ++ ": " ++
            String.intercalate ", " (res.missing_components.map describeShort))

/-- `PosOrder._check_mrp_availability_for_order`: `none` when the order may
proceed, the blocking error message otherwise. -/
def _check_mrp_availability_for_order (env : Env) (o : UiOrder) : Option String :=
  if o.lines.isEmpty then none
  else
    let ctx := uiOrderCtx env o
    let unavailable := o.lines.filterMap (uiLineIssue env ctx.1 ctx.2)
    if unavailable.isEmpty then none
    else some ("طلب " ++ o.name ++ ":\nالمواد الخام غير كافية للتصنيع:\n" ++
      String.intercalate "\n" unavailable)

/-- The validation loop of `sync_from_ui`: orders whose check returns an
error go to `blocked_orders` (with their error), the rest to
`valid_orders`, in submission order. -/
def syncPartition (env : Env) : List UiOrder → List UiOrder × List (UiOrder × String)
  | [] => ([], [])
  | o :: rest =>
    let acc := syncPartition env rest
    match _check_mrp_availability_for_order env o with
    | some e => (acc.1, (o, e) :: acc.2)
    | none => (o :: acc.1, acc.2)

/-- The server order built by the base `sync_from_ui` from a submitted UI
order (lines whose product reference does not resolve carry no product
record and are dropped). -/
def uiToOrder (env : Env) (o : UiOrder) : Order :=
  { name := o.name
  , companyId := (uiOrderCtx env o).1
  , sessionId := o.sessionId
  , lines := o.lines.filterMap (fun l =>
      l.product_id.bind (fun pid =>
        (env.products.find? (fun p => p.id == pid)).map (fun p =>
          { id := l.id, product := p, qty := l.qty })))
  }

/-- The base-class `sync_from_ui` (the `super()` call): persist each order
and run its paid flow in submission order; an error aborts the batch and
propagates. Returns the job store, the committed orders, and the error if
any. -/
def super_sync (env : Env) :
    List ProductionJob → List UiOrder →
    List ProductionJob × List UiOrder × Option PaidError
  | jobs, [] => (jobs, [], none)
  | jobs, o :: rest =>
    match action_pos_order_paid env jobs (uiToOrder env o) with
    | (jobs2, some e) => (jobs2, [], some e)
    | (jobs2, none) =>
      let acc := super_sync env jobs2 rest
      (acc.1, o :: acc.2.1, acc.2.2)

/-- The error surfaced by the overridden `sync_from_ui`: the immediate
`UserError` of a failed single-order submission, or an error propagated
from the base sync. -/
inductive SyncError where
  | blocked (msg : String)
  | paid (e : PaidError)
  deriving Repr, DecidableEq

/-- The error message of the first blocked order (`blocked_orders[0][1]`). -/
def firstBlockedMsg : List (UiOrder × String) → String
  | [] => ""
  | (_, e) :: _ => e

/-- Wrapper threading a `super().sync_from_ui` call into the override's
result type. -/
def withSuper (env : Env) (jobs : List ProductionJob) (orders : List UiOrder) :
    List ProductionJob × List UiOrder × Option SyncError :=
  match super_sync env jobs orders with
  | (j, committed, err) => (j, committed, err.map .paid)

/-- `PosOrder.sync_from_ui` (the override): validate every submitted order;
a failing single-order submission raises immediately; a batch with blocked
orders commits only the valid ones (or returns an empty result when none
are valid); otherwise everything is handed to the base sync. -/
def sync_from_ui (env : Env) (jobs : List ProductionJob) (orders : List UiOrder) :
    List ProductionJob × List UiOrder × Option SyncError :=
  let vb := syncPartition env orders
  if orders.length = 1 ∧ vb.2 ≠ [] then
    (jobs, [], some (.blocked (firstBlockedMsg vb.2)))
  else if 1 < orders.length ∧ vb.2 ≠ [] then
    if vb.1 = [] then (jobs, [], none)
    else withSuper env jobs vb.1
  else withSuper env jobs orders

/-- The `ValidationError` message of `_check_pos_mrp_bom`. -/
def bomRequiredMsg (tmpl : ProductTemplate) : String :=
  "Product " ++ tmpl.name ++ " requires a valid Bill of Materials (BOM) " ++
    "to enable manufacturing from POS. Please create a BOM first."

/-- `ProductTemplate._check_pos_mrp_bom`: the constraint raised on write
when POS manufacturing is enabled without an explicit POS BOM and without
any active normal-kind BOM. -/
def _check_pos_mrp_bom (tmpl : ProductTemplate) (bom_ids : List Bom) : Option String :=
  if tmpl.pos_mrp_enabled then
    if tmpl.pos_bom_id = none ∧
        bom_ids.filter (fun b => b.bomType == "normal" && b.active) = [] then
      some (bomRequiredMsg tmpl)
    else none
  else none

/-- The framework contract of
`@api.constrains('pos_mrp_enabled', 'pos_bom_id', 'bom_ids')`: a write of
the POS-MRP configuration persists the new values only when
`_check_pos_mrp_bom` does not raise; otherwise the `ValidationError`
propagates and the write is rejected. -/
def write_product (tmpl : ProductTemplate) (bom_ids : List Bom) :
    Except String (ProductTemplate × List Bom) :=
  match _check_pos_mrp_bom tmpl bom_ids with
  | some e => .error e
  | none => .ok (tmpl, bom_ids)

/-! ## Concrete fixtures

A small concrete record store used by the witnesses and counterexamples:
one manufactured product with a two-per-unit component BOM and four units
of component stock, one manufactured product with no BOM and the
availability check disabled, and one manufactured product with no BOM and
the availability check enabled. -/

/-- BOM line: two units of component 101 ("Patty") per unit produced. -/
def pattyLine : BomLine := ⟨101, "Patty", 2, "Units"⟩

/-- Active normal BOM of template 1, variant-agnostic, company-agnostic. -/
def bomBurger : Bom := ⟨11, 1, none, none, "normal", true, 1, [pattyLine]⟩

/-- MRP-enabled template with availability checking on (BOM resolvable). -/
def tmplBurger : ProductTemplate := ⟨1, "Burger", true, true, none, true⟩

/-- MRP-enabled template, availability checking off, no BOM anywhere. -/
def tmplCake : ProductTemplate := ⟨2, "Cake", true, true, none, false⟩

/-- MRP-enabled template, availability checking on, no BOM anywhere. -/
def tmplPie : ProductTemplate := ⟨3, "Pie", true, true, none, true⟩

/-- Template with POS manufacturing disabled. -/
def tmplWater : ProductTemplate := ⟨5, "Water", false, true, none, false⟩

/-- Empty placeholder BOM (no component lines), of template 4. -/
def emptyBom : Bom := ⟨12, 4, none, none, "normal", true, 1, []⟩

/-- MRP-enabled template whose explicit POS BOM is the empty BOM. -/
def tmplTea : ProductTemplate := ⟨4, "Tea", true, true, some emptyBom, true⟩

/-- Variant of `tmplBurger`. -/
def prodBurger : Product := ⟨51, "Burger", tmplBurger, 3⟩

/-- Variant of `tmplCake`. -/
def prodCake : Product := ⟨52, "Cake", tmplCake, 3⟩

/-- Variant of `tmplPie`. -/
def prodPie : Product := ⟨53, "Pie", tmplPie, 3⟩

/-- Warehouse 7 of company 1, with stock location 70. -/
def wh1 : Warehouse := ⟨7, 1, some 70⟩

/-- Session 9 of company 1, warehouse 7. -/
def sess1 : Session := ⟨9, 1, some 7⟩

/-- Manufacturing picking type of warehouse 7, company 1. -/
def pt1 : PickingType := ⟨21, "mrp_operation", some 7, 1⟩

/-- The concrete record store: four units of component 101 at location 70,
nothing else anywhere. -/
def envA : Env :=
  { products := [prodBurger, prodCake, prodPie]
  , catalog := [bomBurger]
  , warehouses := [wh1]
  , sessions := [sess1]
  , pickingTypes := [pt1]
  , stock := fun c l => if c == 101 && l == 70 then 4 else 0
  , defaultCompanyId := 1
  , createFails := fun _ => false }

/-- `envA` with the warehouse table empty (no location resolvable). -/
def envBare : Env :=
  { envA with warehouses := [] }

/-- UI order: five burgers (requires 10 patties, 4 on hand). -/
def uiBurger5 : UiOrder := ⟨"Order-1", some 9, [⟨1, some 51, 5⟩]⟩

/-- UI order: one cake (MRP-enabled, no BOM, availability check off). -/
def uiCake1 : UiOrder := ⟨"Order-2", some 9, [⟨1, some 52, 1⟩]⟩

/-- UI order: one burger (requires 2 patties, 4 on hand). -/
def uiBurger1 : UiOrder := ⟨"Order-3", some 9, [⟨1, some 51, 1⟩]⟩

/-- Server order: one burger. -/
def ordBurger1 : Order := ⟨"S-1", 1, some 9, [⟨201, prodBurger, 1⟩]⟩

/-- Server order: one pie (MRP-enabled, no BOM). -/
def ordPie1 : Order := ⟨"S-2", 1, some 9, [⟨205, prodPie, 1⟩]⟩

/-- Variant of `tmplTea`. -/
def prodTea : Product := ⟨54, "Tea", tmplTea, 3⟩

/-- `envA` extended with the tea variant. -/
def envB : Env := { envA with products := [prodBurger, prodCake, prodPie, prodTea] }

/-- UI order: one pie (MRP-enabled, check on, no BOM → blocked). -/
def uiPie1 : UiOrder := ⟨"Order-4", some 9, [⟨1, some 53, 1⟩]⟩

/-- UI order: two teas (empty BOM → always available). -/
def uiTea2 : UiOrder := ⟨"Order-5", some 9, [⟨1, some 54, 2⟩]⟩

/-- The blocking message the batch validator produces for `uiPie1` in
`envB`. -/
def msgPie : String :=
  "طلب Order-4:\nالمواد الخام غير كافية للتصنيع:\n📦 Pie: No BOM found"

/-! ## Claims -/

/-- When no BOM is resolvable, the availability check reports unavailable
with a single `No BOM found` entry carrying the requested quantity as
`required` and `shortage`. -/
lemma check_no_bom (env : Env) (tmpl : ProductTemplate) (pid : Option Nat)
    (q : ℚ) (cid wid : Option Nat)
    (h : get_pos_bom tmpl env.catalog pid cid = none) :
    check_components_availability env tmpl pid q cid wid =
      ⟨false, [⟨tmpl.name, q, 0, q, none, some "No BOM found"⟩]⟩ := by
  unfold check_components_availability
  rw [h]

/-- Claim C2, as stated, is false: when no BOM is resolvable the report does
carry a single `NO_BOM` shortage entry, but its numeric fields are not all
zero — at requested quantity 1 the entry has `required = 1` and
`shortage = 1`. -/
theorem C2_counterexample :
    check_components_availability envA tmplPie none 1 (some 1) none =
      ⟨false, [⟨"Pie", 1, 0, 1, none, some "No BOM found"⟩]⟩ ∧ (1 : ℚ) ≠ 0 := by
  refine ⟨by decide, by norm_num⟩

/-- Claim C2 (amended): for every call to the Availability Checker where no
BOM is resolvable, the report has `available = false` and exactly one
shortage entry with reason `No BOM found`, `required` and `shortage` equal
to the requested quantity, and `available = 0`. -/
theorem C2_no_bom_report (env : Env) (tmpl : ProductTemplate) (pid : Option Nat)
    (q : ℚ) (cid wid : Option Nat)
    (h : get_pos_bom tmpl env.catalog pid cid = none) :
    check_components_availability env tmpl pid q cid wid =
      ⟨false, [⟨tmpl.name, q, 0, q, none, some "No BOM found"⟩]⟩ :=
  check_no_bom env tmpl pid q cid wid h

/-- Witness for `C2_no_bom_report`: the pie template resolves no BOM in the
concrete store, and its report is the single `No BOM found` entry. -/
theorem C2_no_bom_report_witness :
    get_pos_bom tmplPie envA.catalog none (some 1) = none ∧
      check_components_availability envA tmplPie none 1 (some 1) none =
        ⟨false, [⟨"Pie", 1, 0, 1, none, some "No BOM found"⟩]⟩ :=
  ⟨by decide, C2_no_bom_report envA tmplPie none 1 (some 1) none (by decide)⟩

/-- Claim C6: a resolved BOM with zero component lines reports
`available = true` with an empty shortage list, for every requested
quantity and even when no stock location would be resolvable. -/
theorem C6_empty_bom_available (env : Env) (tmpl : ProductTemplate)
    (pid : Option Nat) (q : ℚ) (cid wid : Option Nat) (bom : Bom)
    (hbom : get_pos_bom tmpl env.catalog pid cid = some bom)
    (hempty : bom.lines = []) :
    check_components_availability env tmpl pid q cid wid = ⟨true, []⟩ := by
  unfold check_components_availability
  rw [hbom]
  simp [hempty]

/-- Witness for `C6_empty_bom_available`: the tea template's explicit POS
BOM has no lines; in the store with no warehouses at all the check still
reports available at quantity 37. -/
theorem C6_empty_bom_available_witness :
    get_pos_bom tmplTea envBare.catalog none none = some emptyBom ∧
      emptyBom.lines = [] ∧
      check_components_availability envBare tmplTea none 37 none none = ⟨true, []⟩ :=
  ⟨by decide, by decide,
    C6_empty_bom_available envBare tmplTea none 37 none none emptyBom
      (by decide) (by decide)⟩

/-- Claim C7: on a BOM with at least one component, when no stock location
resolves the check fails closed: `available = false` with exactly one
shortage entry whose reason is the no-location message and whose numeric
fields are zero. -/
theorem C7_no_location_fail_closed (env : Env) (tmpl : ProductTemplate)
    (pid : Option Nat) (q : ℚ) (cid wid : Option Nat) (bom : Bom)
    (hbom : get_pos_bom tmpl env.catalog pid cid = some bom)
    (hne : bom.lines ≠ [])
    (hloc : resolveLocation env cid wid = none) :
    check_components_availability env tmpl pid q cid wid =
      ⟨false, [⟨"System", 0, 0, 0, none,
        some "No warehouse location found for stock check"⟩]⟩ := by
  unfold check_components_availability
  rw [hbom]
  have hb : bom.lines.isEmpty = false := by
    cases h : bom.lines with
    | nil => exact absurd h hne
    | cons a l => rfl
  simp only [hb, Bool.false_eq_true, if_false]
  rw [hloc]

/-- Witness for `C7_no_location_fail_closed`: with the warehouse table
empty, the burger availability check fails closed. -/
theorem C7_no_location_fail_closed_witness :
    get_pos_bom tmplBurger envBare.catalog (some 51) (some 1) = some bomBurger ∧
      bomBurger.lines ≠ [] ∧
      resolveLocation envBare (some 1) (some 7) = none ∧
      check_components_availability envBare tmplBurger (some 51) 5 (some 1) (some 7) =
        ⟨false, [⟨"System", 0, 0, 0, none,
          some "No warehouse location found for stock check"⟩]⟩ :=
  ⟨by decide, by decide, by decide,
    C7_no_location_fail_closed envBare tmplBurger (some 51) 5 (some 1) (some 7)
      bomBurger (by decide) (by decide) (by decide)⟩

/-- Claim C4: a failing single-order submission raises immediately and
creates no production job — `sync_from_ui` on a one-order batch whose check
fails returns the blocking error with the job store unchanged and nothing
committed, and `action_pos_order_paid` on a validation failure raises with
the job store unchanged. -/
theorem C4_single_order_no_partial_commit :
    (∀ (env : Env) (jobs : List ProductionJob) (o : UiOrder) (e : String),
      _check_mrp_availability_for_order env o = some e →
      sync_from_ui env jobs [o] = (jobs, [], some (.blocked e))) ∧
    (∀ (env : Env) (jobs : List ProductionJob) (o : Order) (e : MrpError),
      _validate_mrp_products env o = some e →
      action_pos_order_paid env jobs o = (jobs, some (.validation e))) := by
  constructor
  · intro env jobs o e h
    simp [sync_from_ui, syncPartition, h, firstBlockedMsg]
  · intro env jobs o e h
    unfold action_pos_order_paid
    rw [h]

/-- Witness for `C4_single_order_no_partial_commit`: the single pie
submission fails its check and is raised with nothing committed and no job
created; the pie order also fails validation in the paid path with no job
created. -/
theorem C4_single_order_no_partial_commit_witness :
    (_check_mrp_availability_for_order envB uiPie1 = some msgPie ∧
      sync_from_ui envB [] [uiPie1] = ([], [], some (.blocked msgPie))) ∧
    (_validate_mrp_products envA ordPie1 = some (.noBom ["Pie"]) ∧
      action_pos_order_paid envA [] ordPie1 =
        ([], some (.validation (.noBom ["Pie"])))) :=
  ⟨⟨by decide,
    C4_single_order_no_partial_commit.1 envB [] uiPie1 msgPie (by decide)⟩,
   ⟨by decide,
    C4_single_order_no_partial_commit.2 envA [] ordPie1 (.noBom ["Pie"]) (by decide)⟩⟩

/-- Claim C10: writing a product configuration that is MRP-enabled with
neither an explicit POS BOM nor an active normal-kind BOM is rejected with
a validation error, and every accepted write persists a configuration that
is not in that state. -/
theorem C10_write_constraint (tmpl : ProductTemplate) (bom_ids : List Bom) :
    (tmpl.pos_mrp_enabled = true → tmpl.pos_bom_id = none →
      bom_ids.filter (fun b => b.bomType == "normal" && b.active) = [] →
      write_product tmpl bom_ids = .error (bomRequiredMsg tmpl)) ∧
    (∀ t b, write_product tmpl bom_ids = .ok (t, b) →
      t = tmpl ∧ b = bom_ids ∧
      ¬(tmpl.pos_mrp_enabled = true ∧ tmpl.pos_bom_id = none ∧
        bom_ids.filter (fun bm => bm.bomType == "normal" && bm.active) = [])) := by
  constructor
  · intro h1 h2 h3
    unfold write_product _check_pos_mrp_bom
    rw [if_pos h1, if_pos ⟨h2, h3⟩]
  · intro t b hok
    unfold write_product _check_pos_mrp_bom at hok
    by_cases h1 : tmpl.pos_mrp_enabled = true
    · rw [if_pos h1] at hok
      by_cases h2 : tmpl.pos_bom_id = none ∧
          bom_ids.filter (fun bm => bm.bomType == "normal" && bm.active) = []
      · rw [if_pos h2] at hok
        exact Except.noConfusion hok
      · rw [if_neg h2] at hok
        injection hok with h
        rw [Prod.mk.injEq] at h
        exact ⟨h.1.symm, h.2.symm, fun hc => h2 ⟨hc.2.1, hc.2.2⟩⟩
    · rw [if_neg h1] at hok
      injection hok with h
      rw [Prod.mk.injEq] at h
      exact ⟨h.1.symm, h.2.symm, fun hc => h1 hc.1⟩

/-- Witness for `C10_write_constraint`: the enabled, BOM-less pie template
is rejected; the disabled water template is accepted unchanged. -/
theorem C10_write_constraint_witness :
    write_product tmplPie [] = .error (bomRequiredMsg tmplPie) ∧
      (tmplWater = tmplWater ∧ ([] : List Bom) = [] ∧
        ¬(tmplWater.pos_mrp_enabled = true ∧ tmplWater.pos_bom_id = none ∧
          ([] : List Bom).filter (fun bm => bm.bomType == "normal" && bm.active) = [])) :=
  ⟨(C10_write_constraint tmplPie []).1 (by decide) (by decide) (by decide),
   (C10_write_constraint tmplWater []).2 tmplWater [] (by rfl)⟩

/-- The two lists of the batch partition together have one slot per
submitted order. -/
lemma syncPartition_length (env : Env) (orders : List UiOrder) :
    (syncPartition env orders).1.length + (syncPartition env orders).2.length =
      orders.length := by
  induction orders with
  | nil => rfl
  | cons o rest ih =>
    cases h : _check_mrp_availability_for_order env o <;>
      simp [syncPartition, h] <;> omega

/-- Membership in the valid side of the batch partition: exactly the
submitted orders whose check passes. -/
lemma syncPartition_mem_fst (env : Env) (orders : List UiOrder) (o : UiOrder) :
    o ∈ (syncPartition env orders).1 ↔
      o ∈ orders ∧ _check_mrp_availability_for_order env o = none := by
  induction orders with
  | nil => simp [syncPartition]
  | cons a rest ih =>
    cases h : _check_mrp_availability_for_order env a with
    | none =>
      simp only [syncPartition, h, List.mem_cons, ih]
      constructor
      · rintro (rfl | ⟨hm, hn⟩)
        · exact ⟨Or.inl rfl, h⟩
        · exact ⟨Or.inr hm, hn⟩
      · rintro ⟨rfl | hm, hn⟩
        · exact Or.inl rfl
        · exact Or.inr ⟨hm, hn⟩
    | some e =>
      simp only [syncPartition, h, ih, List.mem_cons]
      constructor
      · rintro ⟨hm, hn⟩
        exact ⟨Or.inr hm, hn⟩
      · rintro ⟨rfl | hm, hn⟩
        · rw [h] at hn; exact Option.noConfusion hn
        · exact ⟨hm, hn⟩

/-- Membership in the blocked side of the batch partition: exactly the
submitted orders whose check fails, paired with their error. -/
lemma syncPartition_mem_snd (env : Env) (orders : List UiOrder) (o : UiOrder)
    (e : String) :
    (o, e) ∈ (syncPartition env orders).2 ↔
      o ∈ orders ∧ _check_mrp_availability_for_order env o = some e := by
  induction orders with
  | nil => simp [syncPartition]
  | cons a rest ih =>
    cases h : _check_mrp_availability_for_order env a with
    | none =>
      simp only [syncPartition, h, ih, List.mem_cons]
      constructor
      · rintro ⟨hm, hs⟩
        exact ⟨Or.inr hm, hs⟩
      · rintro ⟨rfl | hm, hs⟩
        · rw [h] at hs; exact Option.noConfusion hs
        · exact ⟨hm, hs⟩
    | some e' =>
      simp only [syncPartition, h, List.mem_cons, ih, Prod.mk.injEq]
      constructor
      · rintro (⟨rfl, rfl⟩ | ⟨hm, hs⟩)
        · exact ⟨Or.inl rfl, h⟩
        · exact ⟨Or.inr hm, hs⟩
      · rintro ⟨rfl | hm, hs⟩
        · rw [h] at hs
          exact Or.inl ⟨rfl, (Option.some.injEq _ _ ▸ hs).symm⟩
        · exact Or.inr ⟨hm, hs⟩

/-- Claim C3: the valid and blocked sets of the batch protocol form a
partition of the submitted orders — the lengths add up to the submission
size, every submitted order lands in at least one side, and no order is on
both sides. -/
theorem C3_batch_partition (env : Env) (orders : List UiOrder) :
    ((syncPartition env orders).1.length + (syncPartition env orders).2.length =
      orders.length) ∧
    (∀ o, o ∈ orders →
      o ∈ (syncPartition env orders).1 ∨
        ∃ e, (o, e) ∈ (syncPartition env orders).2) ∧
    (∀ o e, o ∈ (syncPartition env orders).1 →
      (o, e) ∈ (syncPartition env orders).2 → False) := by
  refine ⟨syncPartition_length env orders, ?_, ?_⟩
  · intro o hm
    cases h : _check_mrp_availability_for_order env o with
    | none => exact Or.inl ((syncPartition_mem_fst env orders o).mpr ⟨hm, h⟩)
    | some e => exact Or.inr ⟨e, (syncPartition_mem_snd env orders o e).mpr ⟨hm, h⟩⟩
  · intro o e h1 h2
    have hn := ((syncPartition_mem_fst env orders o).mp h1).2
    have hs := ((syncPartition_mem_snd env orders o e).mp h2).2
    rw [hn] at hs
    exact Option.noConfusion hs

/-- Witness for `C3_batch_partition`: the two-order batch of one cake order
and one pie order splits one-and-one, and the cake order is on a side. -/
theorem C3_batch_partition_witness :
    ((syncPartition envB [uiCake1, uiPie1]).1.length +
      (syncPartition envB [uiCake1, uiPie1]).2.length = 2) ∧
    (uiCake1 ∈ [uiCake1, uiPie1] ∧
      (uiCake1 ∈ (syncPartition envB [uiCake1, uiPie1]).1 ∨
        ∃ e, (uiCake1, e) ∈ (syncPartition envB [uiCake1, uiPie1]).2)) :=
  ⟨(C3_batch_partition envB [uiCake1, uiPie1]).1,
   by decide,
   (C3_batch_partition envB [uiCake1, uiPie1]).2.1 uiCake1 (by decide)⟩

/-- On the component-scan path (BOM resolved, at least one component,
location resolved), the report is the one-pass filter of the short
components. -/
lemma check_scan_eq (env : Env) (tmpl : ProductTemplate) (pid : Option Nat)
    (q : ℚ) (cid wid : Option Nat) (bom : Bom) (loc : Nat)
    (hbom : get_pos_bom tmpl env.catalog pid cid = some bom)
    (hne : bom.lines ≠ [])
    (hloc : resolveLocation env cid wid = some loc) :
    check_components_availability env tmpl pid q cid wid =
      ⟨(bom.lines.filterMap (componentShort env loc q)).isEmpty,
        bom.lines.filterMap (componentShort env loc q)⟩ := by
  unfold check_components_availability
  rw [hbom]
  have hb : bom.lines.isEmpty = false := by
    cases h : bom.lines with
    | nil => exact absurd h hne
    | cons a l => rfl
  simp only [hb, Bool.false_eq_true, if_false]
  rw [hloc]

/-- Claim C5: on the component-scan path, `required = perUnitQty * targetQty`
exactly; a shortage entry is recorded for a component iff
`available < required`, with `shortage = max(0, required - available)`
(equal to `required - available` there); every short component of the BOM
appears in the report (no short-circuit); every report entry comes from a
short component; and the report's `available` flag is true iff no shortage
entry was appended, iff no component is short. -/
theorem C5_shortage_arithmetic (env : Env) (tmpl : ProductTemplate)
    (pid : Option Nat) (q : ℚ) (cid wid : Option Nat) (bom : Bom) (loc : Nat)
    (hbom : get_pos_bom tmpl env.catalog pid cid = some bom)
    (hne : bom.lines ≠ [])
    (hloc : resolveLocation env cid wid = some loc) :
    (∀ line ∈ bom.lines,
      env.stock line.componentId loc < line.productQty * q →
      (⟨line.componentName, line.productQty * q, env.stock line.componentId loc,
        max 0 (line.productQty * q - env.stock line.componentId loc),
        some line.uomName, none⟩ : MissingComponent) ∈
        (check_components_availability env tmpl pid q cid wid).missing_components) ∧
    (∀ c ∈ (check_components_availability env tmpl pid q cid wid).missing_components,
      ∃ line, line ∈ bom.lines ∧
        env.stock line.componentId loc < line.productQty * q ∧
        c = ⟨line.componentName, line.productQty * q, env.stock line.componentId loc,
          line.productQty * q - env.stock line.componentId loc,
          some line.uomName, none⟩) ∧
    ((check_components_availability env tmpl pid q cid wid).available = true ↔
      (check_components_availability env tmpl pid q cid wid).missing_components = []) ∧
    ((check_components_availability env tmpl pid q cid wid).available = true ↔
      ∀ line ∈ bom.lines,
        line.productQty * q ≤ env.stock line.componentId loc) := by
  rw [check_scan_eq env tmpl pid q cid wid bom loc hbom hne hloc]
  refine ⟨?_, ?_, ?_, ?_⟩
  · intro line hmem hshort
    rw [List.mem_filterMap]
    refine ⟨line, hmem, ?_⟩
    unfold componentShort
    rw [if_pos hshort]
    have hmax : max 0 (line.productQty * q - env.stock line.componentId loc) =
        line.productQty * q - env.stock line.componentId loc :=
      max_eq_right (by linarith)
    rw [hmax]
  · intro c hc
    rw [List.mem_filterMap] at hc
    obtain ⟨line, hmem, heq⟩ := hc
    unfold componentShort at heq
    by_cases hlt : env.stock line.componentId loc < line.productQty * q
    · rw [if_pos hlt] at heq
      exact ⟨line, hmem, hlt, (Option.some.injEq _ _ ▸ heq).symm⟩
    · rw [if_neg hlt] at heq
      exact Option.noConfusion heq
  · simp only [List.isEmpty_iff]
  · simp only [List.isEmpty_iff, List.filterMap_eq_nil_iff]
    constructor
    · intro h line hmem
      have := h line hmem
      unfold componentShort at this
      by_cases hlt : env.stock line.componentId loc < line.productQty * q
      · rw [if_pos hlt] at this
        exact absurd this (Option.noConfusion)
      · exact le_of_not_lt hlt
    · intro h line hmem
      unfold componentShort
      rw [if_neg (not_lt.mpr (h line hmem))]

/-- Witness for `C5_shortage_arithmetic`: the burger BOM resolves, has a
component line, and location 70 resolves in the concrete store; the scan
properties hold there at target quantity 5. -/
theorem C5_shortage_arithmetic_witness :
    (get_pos_bom tmplBurger envA.catalog (some 51) (some 1) = some bomBurger ∧
      bomBurger.lines ≠ [] ∧
      resolveLocation envA (some 1) (some 7) = some 70) ∧
    ((∀ line ∈ bomBurger.lines,
      envA.stock line.componentId 70 < line.productQty * 5 →
      (⟨line.componentName, line.productQty * 5, envA.stock line.componentId 70,
        max 0 (line.productQty * 5 - envA.stock line.componentId 70),
        some line.uomName, none⟩ : MissingComponent) ∈
        (check_components_availability envA tmplBurger (some 51) 5 (some 1)
          (some 7)).missing_components) ∧
    (∀ c ∈ (check_components_availability envA tmplBurger (some 51) 5 (some 1)
        (some 7)).missing_components,
      ∃ line, line ∈ bomBurger.lines ∧
        envA.stock line.componentId 70 < line.productQty * 5 ∧
        c = ⟨line.componentName, line.productQty * 5, envA.stock line.componentId 70,
          line.productQty * 5 - envA.stock line.componentId 70,
          some line.uomName, none⟩) ∧
    ((check_components_availability envA tmplBurger (some 51) 5 (some 1)
        (some 7)).available = true ↔
      (check_components_availability envA tmplBurger (some 51) 5 (some 1)
        (some 7)).missing_components = []) ∧
    ((check_components_availability envA tmplBurger (some 51) 5 (some 1)
        (some 7)).available = true ↔
      ∀ line ∈ bomBurger.lines,
        line.productQty * 5 ≤ envA.stock line.componentId 70)) :=
  ⟨⟨by decide, by decide, by decide⟩,
    C5_shortage_arithmetic envA tmplBurger (some 51) 5 (some 1) (some 7)
      bomBurger 70 (by decide) (by decide) (by decide)⟩

/-- "Comes no later than" under the search order
`'sequence, product_id desc'`: lower sequence, or equal sequence and a
variant key at least as high. -/
def seqVariantLE (a b : Bom) : Prop :=
  a.sequence < b.sequence ∨ (a.sequence = b.sequence ∧ variantKey b ≤ variantKey a)

lemma seqVariantLE_refl (a : Bom) : seqVariantLE a a :=
  Or.inr ⟨rfl, le_refl _⟩

lemma seqVariantLE_trans {a b c : Bom} (h1 : seqVariantLE a b)
    (h2 : seqVariantLE b c) : seqVariantLE a c := by
  unfold seqVariantLE at *
  omega

lemma seqVariantLE_of_before {a b : Bom} (h : bomBefore a b = true) :
    seqVariantLE a b := by
  simp only [bomBefore, Bool.or_eq_true, Bool.and_eq_true, decide_eq_true_eq,
    beq_iff_eq] at h
  unfold seqVariantLE
  omega

lemma seqVariantLE_of_not_before {a b : Bom} (h : bomBefore a b = false) :
    seqVariantLE b a := by
  simp only [bomBefore, Bool.or_eq_false_iff, Bool.and_eq_false_iff,
    decide_eq_false_iff_not, beq_eq_false_iff_ne] at h
  unfold seqVariantLE
  rcases h with ⟨h1, h2 | h2⟩ <;> omega

/-- The ordered fold starting from a candidate returns a record that is
either the candidate or a list element, and comes no later than the
candidate and than every list element. -/
lemma searchFold_min (l : List Bom) : ∀ a : Bom,
    ∃ r, l.foldl searchStep (some a) = some r ∧ (r = a ∨ r ∈ l) ∧
      seqVariantLE r a ∧ ∀ x ∈ l, seqVariantLE r x := by
  induction l with
  | nil =>
    intro a
    exact ⟨a, rfl, Or.inl rfl, seqVariantLE_refl a, by simp⟩
  | cons b t ih =>
    intro a
    cases hb : bomBefore b a with
    | true =>
      obtain ⟨r, hr, hmem, hle, hall⟩ := ih b
      refine ⟨r, ?_, ?_, ?_, ?_⟩
      · rw [List.foldl_cons]
        show List.foldl searchStep (if bomBefore b a = true then some b else some a) t =
          some r
        rw [if_pos hb]
        exact hr
      · rcases hmem with rfl | hm
        · exact Or.inr (List.mem_cons_self _ _)
        · exact Or.inr (List.mem_cons_of_mem _ hm)
      · exact seqVariantLE_trans hle (seqVariantLE_of_before hb)
      · intro x hx
        rcases List.mem_cons.mp hx with rfl | hx'
        · exact hle
        · exact hall x hx'
    | false =>
      obtain ⟨r, hr, hmem, hle, hall⟩ := ih a
      refine ⟨r, ?_, ?_, hle, ?_⟩
      · rw [List.foldl_cons]
        show List.foldl searchStep (if bomBefore b a = true then some b else some a) t =
          some r
        rw [if_neg (by rw [hb]; exact Bool.false_ne_true)]
        exact hr
      · rcases hmem with rfl | hm
        · exact Or.inl rfl
        · exact Or.inr (List.mem_cons_of_mem _ hm)
      · intro x hx
        rcases List.mem_cons.mp hx with rfl | hx'
        · exact seqVariantLE_trans hle (seqVariantLE_of_not_before hb)
        · exact hall x hx'

/-- The ordered `limit=1` search returns nothing iff no catalog record
matches the domain. -/
lemma searchBom_eq_none_iff (catalog : List Bom) (tmplId : Nat)
    (pid cid : Option Nat) :
    searchBom catalog tmplId pid cid = none ↔
      ∀ b ∈ catalog, bomMatches tmplId pid cid b = false := by
  unfold searchBom
  have hiff : (catalog.filter (bomMatches tmplId pid cid) = []) ↔
      (∀ b ∈ catalog, bomMatches tmplId pid cid b = false) := by
    rw [List.filter_eq_nil_iff]
    simp only [Bool.not_eq_true]
  rw [← hiff]
  cases hf : catalog.filter (bomMatches tmplId pid cid) with
  | nil => simp
  | cons c t =>
    obtain ⟨r, hr, _, _, _⟩ := searchFold_min t c
    constructor
    · intro h
      rw [List.foldl_cons] at h
      rw [show searchStep none c = some c from rfl] at h
      rw [hr] at h
      exact Option.noConfusion h
    · intro h
      exact List.noConfusion h

/-- The ordered `limit=1` search returns a matching record that comes no
later than every matching record. -/
lemma searchBom_eq_some (catalog : List Bom) (tmplId : Nat) (pid cid : Option Nat)
    (b : Bom) (h : searchBom catalog tmplId pid cid = some b) :
    bomMatches tmplId pid cid b = true ∧
      ∀ a ∈ catalog, bomMatches tmplId pid cid a = true → seqVariantLE b a := by
  unfold searchBom at h
  cases hf : catalog.filter (bomMatches tmplId pid cid) with
  | nil =>
    rw [hf] at h
    exact Option.noConfusion h
  | cons c t =>
    rw [hf] at h
    rw [List.foldl_cons, show searchStep none c = some c from rfl] at h
    obtain ⟨r, hr, hmem, hle, hall⟩ := searchFold_min t c
    rw [hr] at h
    have hrb : r = b := Option.some.injEq _ _ ▸ h
    subst hrb
    have hrf : r ∈ catalog.filter (bomMatches tmplId pid cid) := by
      rw [hf]
      rcases hmem with rfl | hm
      · exact List.mem_cons_self _ _
      · exact List.mem_cons_of_mem _ hm
    refine ⟨(List.mem_filter.mp hrf).2, ?_⟩
    intro a ha hma
    have haf : a ∈ catalog.filter (bomMatches tmplId pid cid) :=
      List.mem_filter.mpr ⟨ha, hma⟩
    rw [hf] at haf
    rcases List.mem_cons.mp haf with rfl | ha'
    · exact hle
    · exact hall a ha'

/-- A record matching a domain with a variant filter either carries exactly
that variant or is variant-agnostic. -/
lemma bomMatches_variant {tmplId : Nat} {v : Nat} {cid : Option Nat} {b : Bom}
    (h : bomMatches tmplId (some v) cid b = true) :
    b.productId = some v ∨ b.productId = none := by
  simp only [bomMatches, Bool.and_eq_true, Bool.or_eq_true, beq_iff_eq] at h
  tauto

/-- Claim C8: BOM resolution returns the explicitly configured POS BOM when
present, regardless of the company/variant filters; otherwise it searches
the catalog under the domain (normal kind, active, owning template, company
filter with global match, variant filter with agnostic match) and returns
`NotFound` iff nothing matches, and otherwise a matching BOM of minimal
sequence whose variant, on a sequence tie with an exact-variant match, is
the exact variant. -/
theorem C8_bom_resolution (tmpl : ProductTemplate) (catalog : List Bom)
    (pid cid : Option Nat) :
    (∀ b, tmpl.pos_bom_id = some b → get_pos_bom tmpl catalog pid cid = some b) ∧
    (tmpl.pos_bom_id = none →
      (get_pos_bom tmpl catalog pid cid = none ↔
        ∀ b ∈ catalog, bomMatches tmpl.id pid cid b = false) ∧
      ∀ b, get_pos_bom tmpl catalog pid cid = some b →
        bomMatches tmpl.id pid cid b = true ∧
        (∀ a ∈ catalog, bomMatches tmpl.id pid cid a = true →
          b.sequence ≤ a.sequence) ∧
        (∀ v a, pid = some v → a ∈ catalog →
          bomMatches tmpl.id pid cid a = true → a.sequence = b.sequence →
          a.productId = some v → b.productId = some v)) := by
  constructor
  · intro b hb
    unfold get_pos_bom
    rw [hb]
  · intro hnone
    have hg : get_pos_bom tmpl catalog pid cid = searchBom catalog tmpl.id pid cid := by
      unfold get_pos_bom
      rw [hnone]
    constructor
    · rw [hg]
      exact searchBom_eq_none_iff catalog tmpl.id pid cid
    · intro b hb
      rw [hg] at hb
      obtain ⟨hmatch, hmin⟩ := searchBom_eq_some catalog tmpl.id pid cid b hb
      refine ⟨hmatch, ?_, ?_⟩
      · intro a ha hma
        have h := hmin a ha hma
        unfold seqVariantLE at h
        omega
      · intro v a hv ha hma hseq hav
        have h := hmin a ha hma
        unfold seqVariantLE at h
        subst hv
        rcases bomMatches_variant hmatch with hbv | hbv
        · exact hbv
        · have hka : variantKey a = v + 1 := by simp [variantKey, hav]
          have hkb : variantKey b = 0 := by simp [variantKey, hbv]
          omega

/-- Active normal BOM of template 1, sequence 5, variant-agnostic. -/
def bomTie1 : Bom := ⟨13, 1, none, none, "normal", true, 5, [pattyLine]⟩

/-- Active normal BOM of template 1, sequence 5, specific to variant 51. -/
def bomTie2 : Bom := ⟨14, 1, some 51, none, "normal", true, 5, [pattyLine]⟩

/-- Witness for `C8_bom_resolution`: the tea template's explicit POS BOM
wins over the catalog; without an explicit BOM, the sequence-5 tie between
a variant-agnostic and an exact-variant BOM resolves to the exact-variant
one, which is minimal and matching. -/
theorem C8_bom_resolution_witness :
    (tmplTea.pos_bom_id = some emptyBom ∧
      get_pos_bom tmplTea [bomTie1, bomTie2] (some 51) (some 1) = some emptyBom) ∧
    (tmplBurger.pos_bom_id = none ∧
      get_pos_bom tmplBurger [bomTie1, bomTie2] (some 51) (some 1) = some bomTie2 ∧
      bomMatches tmplBurger.id (some 51) (some 1) bomTie2 = true ∧
      (∀ a ∈ [bomTie1, bomTie2],
        bomMatches tmplBurger.id (some 51) (some 1) a = true →
        bomTie2.sequence ≤ a.sequence) ∧
      (∀ v a, (some 51 : Option Nat) = some v → a ∈ [bomTie1, bomTie2] →
        bomMatches tmplBurger.id (some 51) (some 1) a = true →
        a.sequence = bomTie2.sequence → a.productId = some v →
        bomTie2.productId = some v)) :=
  ⟨⟨by decide,
    (C8_bom_resolution tmplTea [bomTie1, bomTie2] (some 51) (some 1)).1 emptyBom
      (by decide)⟩,
   ⟨by decide, by decide,
    ((C8_bom_resolution tmplBurger [bomTie1, bomTie2] (some 51) (some 1)).2
      (by decide)).2 bomTie2 (by decide)⟩⟩

/-- The job a single line yields in the creation loop when creation
succeeds: `none` for skipped lines (non-MRP product, non-positive quantity,
or no resolvable BOM), the prepared job otherwise. -/
def lineJob (env : Env) (o : Order) (l : OrderLine) : Option ProductionJob :=
  if l.product.tmpl.pos_mrp_enabled = false ∨ l.qty ≤ 0 then none
  else
    match get_pos_bom l.product.tmpl env.catalog (some l.product.id)
        (some o.companyId) with
    | none => none
    | some bom => some (mkJob env o l bom)

lemma createMOs_cons_skip (env : Env) (o : Order) (l : OrderLine)
    (rest : List OrderLine)
    (h : l.product.tmpl.pos_mrp_enabled = false ∨ l.qty ≤ 0) :
    createMOs env o (l :: rest) = createMOs env o rest := by
  conv_lhs => unfold createMOs
  rw [if_pos h]

lemma createMOs_cons_nobom (env : Env) (o : Order) (l : OrderLine)
    (rest : List OrderLine)
    (h : ¬(l.product.tmpl.pos_mrp_enabled = false ∨ l.qty ≤ 0))
    (hb : get_pos_bom l.product.tmpl env.catalog (some l.product.id)
      (some o.companyId) = none) :
    createMOs env o (l :: rest) = createMOs env o rest := by
  conv_lhs => unfold createMOs
  rw [if_neg h, hb]

lemma createMOs_cons_fail (env : Env) (o : Order) (l : OrderLine)
    (rest : List OrderLine) (bom : Bom)
    (h : ¬(l.product.tmpl.pos_mrp_enabled = false ∨ l.qty ≤ 0))
    (hb : get_pos_bom l.product.tmpl env.catalog (some l.product.id)
      (some o.companyId) = some bom)
    (hf : env.createFails l.id = true) :
    createMOs env o (l :: rest) =
      ([], some ("Failed to create Manufacturing Order for product " ++
        l.product.display_name)) := by
  conv_lhs => unfold createMOs
  rw [if_neg h, hb]
  dsimp only
  rw [if_pos hf]

lemma createMOs_cons_ok (env : Env) (o : Order) (l : OrderLine)
    (rest : List OrderLine) (bom : Bom)
    (h : ¬(l.product.tmpl.pos_mrp_enabled = false ∨ l.qty ≤ 0))
    (hb : get_pos_bom l.product.tmpl env.catalog (some l.product.id)
      (some o.companyId) = some bom)
    (hf : env.createFails l.id = false) :
    createMOs env o (l :: rest) =
      (mkJob env o l bom :: (createMOs env o rest).1, (createMOs env o rest).2) := by
  conv_lhs => unfold createMOs
  rw [if_neg h, hb]
  dsimp only
  rw [if_neg (by rw [hf]; exact Bool.false_ne_true)]

/-- After a prefix of lines whose creations succeed, a line whose creation
fails stops the loop with the error, keeping exactly the jobs of the
prefix. -/
lemma createMOs_fail_split (env : Env) (o : Order) (l : OrderLine)
    (post : List OrderLine)
    (hl : lineJob env o l ≠ none) (hfail : env.createFails l.id = true) :
    ∀ pre : List OrderLine,
      (∀ l' ∈ pre, lineJob env o l' ≠ none → env.createFails l'.id = false) →
      createMOs env o (pre ++ l :: post) =
        (pre.filterMap (lineJob env o),
          some ("Failed to create Manufacturing Order for product " ++
            l.product.display_name)) := by
  intro pre
  induction pre with
  | nil =>
    intro _
    simp only [List.nil_append, List.filterMap_nil]
    unfold lineJob at hl
    by_cases hc : l.product.tmpl.pos_mrp_enabled = false ∨ l.qty ≤ 0
    · rw [if_pos hc] at hl
      exact absurd rfl hl
    · rw [if_neg hc] at hl
      cases hb : get_pos_bom l.product.tmpl env.catalog (some l.product.id)
          (some o.companyId) with
      | none =>
        rw [hb] at hl
        exact absurd rfl hl
      | some bom =>
        exact createMOs_cons_fail env o l post bom hc hb hfail
  | cons p pre' ih =>
    intro hpre
    have hpre' : ∀ l' ∈ pre', lineJob env o l' ≠ none →
        env.createFails l'.id = false :=
      fun l' hm => hpre l' (List.mem_cons_of_mem _ hm)
    have hp := hpre p (List.mem_cons_self _ _)
    by_cases hc : p.product.tmpl.pos_mrp_enabled = false ∨ p.qty ≤ 0
    · have hnone : lineJob env o p = none := by
        unfold lineJob
        rw [if_pos hc]
      rw [List.cons_append, createMOs_cons_skip env o p _ hc,
        List.filterMap_cons_none hnone]
      exact ih hpre'
    · cases hb : get_pos_bom p.product.tmpl env.catalog (some p.product.id)
          (some o.companyId) with
      | none =>
        have hnone : lineJob env o p = none := by
          unfold lineJob
          rw [if_neg hc, hb]
        rw [List.cons_append, createMOs_cons_nobom env o p _ hc hb,
          List.filterMap_cons_none hnone]
        exact ih hpre'
      | some bom =>
        have hsome : lineJob env o p = some (mkJob env o p bom) := by
          unfold lineJob
          rw [if_neg hc, hb]
        have hok : env.createFails p.id = false := hp (by simp [hsome])
        rw [List.cons_append, createMOs_cons_ok env o p _ bom hc hb hok,
          List.filterMap_cons_some hsome, ih hpre']

/-- Claim C9: when the creation (or confirmation) of the job of one line
fails, `_create_manufacturing_orders` surfaces the error as a terminal
error, the remaining lines of the order are not processed, and the jobs of
the earlier lines remain created — the result holds exactly the jobs of
the lines before the failing one, with no rollback. -/
theorem C9_partial_creation_kept (env : Env) (o : Order) (pre : List OrderLine)
    (l : OrderLine) (post : List OrderLine)
    (hsplit : o.lines = pre ++ l :: post)
    (hpre : ∀ l' ∈ pre, lineJob env o l' ≠ none → env.createFails l'.id = false)
    (hl : lineJob env o l ≠ none)
    (hfail : env.createFails l.id = true) :
    _create_manufacturing_orders env o =
      (pre.filterMap (lineJob env o),
        some ("Failed to create Manufacturing Order for product " ++
          l.product.display_name)) := by
  unfold _create_manufacturing_orders
  rw [hsplit]
  exact createMOs_fail_split env o l post hl hfail pre hpre

/-- First line of the three-burger order (creation succeeds). -/
def lineB1 : OrderLine := ⟨201, prodBurger, 1⟩

/-- Second line of the three-burger order (creation fails). -/
def lineB2 : OrderLine := ⟨202, prodBurger, 1⟩

/-- Third line of the three-burger order (never processed). -/
def lineB3 : OrderLine := ⟨203, prodBurger, 1⟩

/-- A three-line order. -/
def ordThree : Order := ⟨"S-3", 1, some 9, [lineB1, lineB2, lineB3]⟩

/-- `envA` where the job-creation primitive raises exactly for line 202. -/
def envFail : Env := { envA with createFails := fun lid => lid == 202 }

/-- Witness for `C9_partial_creation_kept`: with creation failing on the
second of three lines, the loop keeps the first line's job, raises, and
never processes the third line. -/
theorem C9_partial_creation_kept_witness :
    (ordThree.lines = [lineB1] ++ lineB2 :: [lineB3] ∧
      lineJob envFail ordThree lineB2 ≠ none ∧
      envFail.createFails lineB2.id = true) ∧
    _create_manufacturing_orders envFail ordThree =
      ([lineB1].filterMap (lineJob envFail ordThree),
        some ("Failed to create Manufacturing Order for product " ++
          lineB2.product.display_name)) :=
  ⟨⟨by decide, by decide, by decide⟩,
    C9_partial_creation_kept envFail ordThree [lineB1] lineB2 [lineB3]
      (by decide) (by decide) (by decide) (by decide)⟩

/-- The wrapper around the base sync commits the same orders. -/
lemma withSuper_committed (env : Env) (jobs : List ProductionJob)
    (orders : List UiOrder) :
    (withSuper env jobs orders).2.1 = (super_sync env jobs orders).2.1 := by
  unfold withSuper
  rcases h : super_sync env jobs orders with ⟨j, c, e⟩
  simp

/-- The base sync only commits orders it was handed. -/
lemma super_sync_commits_subset (env : Env) :
    ∀ (orders : List UiOrder) (jobs : List ProductionJob) (o : UiOrder),
      o ∈ (super_sync env jobs orders).2.1 → o ∈ orders := by
  intro orders
  induction orders with
  | nil =>
    intro jobs o ho
    simp [super_sync] at ho
  | cons a rest ih =>
    intro jobs o ho
    rcases happ : action_pos_order_paid env jobs (uiToOrder env a) with ⟨jobs2, err⟩
    cases err with
    | none =>
      simp only [super_sync, happ] at ho
      rcases List.mem_cons.mp ho with rfl | hm
      · exact List.mem_cons_self _ _
      · exact List.mem_cons_of_mem _ (ih jobs2 o hm)
    | some e =>
      simp only [super_sync, happ] at ho
      exact absurd ho (List.not_mem_nil o)

/-- In a batch of at least two orders, everything `sync_from_ui` commits
comes from the valid side of the partition. -/
lemma sync_from_ui_commits_valid (env : Env) (jobs : List ProductionJob)
    (orders : List UiOrder) (hord : 2 ≤ orders.length) (o : UiOrder)
    (ho : o ∈ (sync_from_ui env jobs orders).2.1) :
    o ∈ (syncPartition env orders).1 := by
  unfold sync_from_ui at ho
  dsimp only at ho
  have h1 : ¬(orders.length = 1 ∧ (syncPartition env orders).2 ≠ []) := by
    rintro ⟨hlen, _⟩
    omega
  rw [if_neg h1] at ho
  by_cases hb : (syncPartition env orders).2 = []
  · have h2 : ¬(1 < orders.length ∧ (syncPartition env orders).2 ≠ []) := by
      rintro ⟨_, hne⟩
      exact hne hb
    rw [if_neg h2, withSuper_committed] at ho
    have hmem := super_sync_commits_subset env orders jobs o ho
    cases hc : _check_mrp_availability_for_order env o with
    | none => exact (syncPartition_mem_fst env orders o).mpr ⟨hmem, hc⟩
    | some e =>
      have hsnd : (o, e) ∈ (syncPartition env orders).2 :=
        (syncPartition_mem_snd env orders o e).mpr ⟨hmem, hc⟩
      rw [hb] at hsnd
      exact absurd hsnd (List.not_mem_nil _)
  · have h2 : 1 < orders.length ∧ (syncPartition env orders).2 ≠ [] :=
      ⟨by omega, hb⟩
    rw [if_pos h2] at ho
    by_cases hv : (syncPartition env orders).1 = []
    · rw [if_pos hv] at ho
      exact absurd ho (List.not_mem_nil _)
    · rw [if_neg hv, withSuper_committed] at ho
      exact super_sync_commits_subset env _ jobs o ho

/-- Claim C1, as stated, is false: in a two-order batch, the cake order has
a line whose product is MRP-enabled and resolves no BOM, yet — because the
product's check-availability flag is unset — the batch validator partitions
it into the valid set, not the blocked set. -/
theorem C1_counterexample :
    (uiCake1.lines = [⟨1, some 52, 1⟩] ∧
      envB.products.find? (fun p => p.id == 52) = some prodCake ∧
      prodCake.tmpl.pos_mrp_enabled = true ∧
      prodCake.tmpl.pos_mrp_check_availability = false ∧
      get_pos_bom prodCake.tmpl envB.catalog (some 52)
        (some (uiOrderCtx envB uiCake1).1) = none) ∧
    syncPartition envB [uiCake1, uiTea2] = ([uiCake1, uiTea2], []) := by
  decide

/-- Claim C1 (amended): in a batch, an order containing a line whose
product is MRP-enabled, has the check-availability flag set, and resolves
no BOM fails the per-order check (its report is a `No BOM found` failure),
is partitioned into the blocked set and not the valid set, and — in a batch
of two or more orders — is never committed by `sync_from_ui`. When the
check-availability flag is unset the batch validator skips the line, so a
missing BOM alone does not defer the order there. -/
theorem C1_no_bom_blocks_when_check_enabled (env : Env) (jobs : List ProductionJob)
    (orders : List UiOrder) (o : UiOrder) (l : UiLine) (p : Product) (pid : Nat)
    (ho : o ∈ orders)
    (hl : l ∈ o.lines)
    (hpid : l.product_id = some pid)
    (hqty : 0 < l.qty)
    (hfind : env.products.find? (fun q => q.id == pid) = some p)
    (henabled : p.tmpl.pos_mrp_enabled = true)
    (hflag : p.tmpl.pos_mrp_check_availability = true)
    (hnobom : get_pos_bom p.tmpl env.catalog (some pid)
      (some (uiOrderCtx env o).1) = none)
    (hord : 2 ≤ orders.length) :
    _check_mrp_availability_for_order env o ≠ none ∧
    o ∉ (syncPartition env orders).1 ∧
    o ∈ ((syncPartition env orders).2).map Prod.fst ∧
    o ∉ (sync_from_ui env jobs orders).2.1 := by
  have hissue : ∃ m, uiLineIssue env (uiOrderCtx env o).1 (uiOrderCtx env o).2 l =
      some m := by
    unfold uiLineIssue
    rw [hpid]
    dsimp only
    rw [if_neg (not_le.mpr hqty)]
    rw [hfind]
    dsimp only
    rw [if_neg (by simp [henabled])]
    rw [if_neg (by simp [hflag])]
    rw [check_no_bom env p.tmpl (some pid) l.qty (some (uiOrderCtx env o).1)
      (uiOrderCtx env o).2 hnobom]
    dsimp only
    rw [if_neg Bool.false_ne_true]
    exact ⟨_, rfl⟩
  have hcheck : ∃ e, _check_mrp_availability_for_order env o = some e := by
    unfold _check_mrp_availability_for_order
    have hne : o.lines ≠ [] := List.ne_nil_of_mem hl
    have hempty : o.lines.isEmpty = false := by
      cases h : o.lines with
      | nil => exact absurd h hne
      | cons a t => rfl
    rw [if_neg (by rw [hempty]; exact Bool.false_ne_true)]
    dsimp only
    obtain ⟨m, hm⟩ := hissue
    have hmem : m ∈ o.lines.filterMap
        (uiLineIssue env (uiOrderCtx env o).1 (uiOrderCtx env o).2) :=
      List.mem_filterMap.mpr ⟨l, hl, hm⟩
    have hne2 : o.lines.filterMap
        (uiLineIssue env (uiOrderCtx env o).1 (uiOrderCtx env o).2) ≠ [] :=
      List.ne_nil_of_mem hmem
    have hempty2 : (o.lines.filterMap
        (uiLineIssue env (uiOrderCtx env o).1 (uiOrderCtx env o).2)).isEmpty =
        false := by
      cases h : o.lines.filterMap
          (uiLineIssue env (uiOrderCtx env o).1 (uiOrderCtx env o).2) with
      | nil => exact absurd h hne2
      | cons a t => rfl
    rw [if_neg (by rw [hempty2]; exact Bool.false_ne_true)]
    exact ⟨_, rfl⟩
  obtain ⟨e, he⟩ := hcheck
  refine ⟨by rw [he]; exact Option.noConfusion, ?_, ?_, ?_⟩
  · intro hmem
    have hc := ((syncPartition_mem_fst env orders o).mp hmem).2
    rw [he] at hc
    exact Option.noConfusion hc
  · exact List.mem_map.mpr
      ⟨(o, e), (syncPartition_mem_snd env orders o e).mpr ⟨ho, he⟩, rfl⟩
  · intro hcommitted
    have hvalid := sync_from_ui_commits_valid env jobs orders hord o hcommitted
    have hc := ((syncPartition_mem_fst env orders o).mp hvalid).2
    rw [he] at hc
    exact Option.noConfusion hc

/-- Witness for `C1_no_bom_blocks_when_check_enabled`: in the two-order
batch of the pie order (MRP-enabled, check on, no BOM) and the tea order,
the pie order fails its check, is blocked, and is not committed. -/
theorem C1_no_bom_blocks_when_check_enabled_witness :
    (uiPie1 ∈ [uiPie1, uiTea2] ∧
      (⟨1, some 53, 1⟩ : UiLine) ∈ uiPie1.lines ∧
      envB.products.find? (fun q => q.id == 53) = some prodPie ∧
      prodPie.tmpl.pos_mrp_enabled = true ∧
      prodPie.tmpl.pos_mrp_check_availability = true ∧
      get_pos_bom prodPie.tmpl envB.catalog (some 53)
        (some (uiOrderCtx envB uiPie1).1) = none) ∧
    (_check_mrp_availability_for_order envB uiPie1 ≠ none ∧
      uiPie1 ∉ (syncPartition envB [uiPie1, uiTea2]).1 ∧
      uiPie1 ∈ ((syncPartition envB [uiPie1, uiTea2]).2).map Prod.fst ∧
      uiPie1 ∉ (sync_from_ui envB [] [uiPie1, uiTea2]).2.1) :=
  ⟨⟨by decide, by decide, by decide, by decide, by decide, by decide⟩,
    C1_no_bom_blocks_when_check_enabled envB [] [uiPie1, uiTea2] uiPie1
      ⟨1, some 53, 1⟩ prodPie 53 (by decide) (by decide) (by decide) (by decide)
      (by decide) (by decide) (by decide) (by decide) (by decide)⟩

end PosMrp
